import Mathlib

/-! Formal model of the polyarb backend core (src/index.js): the arbitrage
evaluator, the market-title matcher and classifier, and the opportunity
aggregator. JavaScript numbers are modelled over ℚ; the one place where the
code can produce NaN (a 0/0 keyword score) is modelled with Option ℚ, where
none stands for NaN and every NaN comparison is false, as in JavaScript. -/

/-- Strategy string returned when the best margin is arbitrage1
(src/index.js line 50). -/
def STRATEGY_YES_POLY : String := "Buy Yes on Polymarket, No on Kalshi"

/-- Strategy string returned when the best margin is arbitrage2
(src/index.js line 51). -/
def STRATEGY_NO_POLY : String := "Buy No on Polymarket, Yes on Kalshi"

/-- MIN_ARBITRAGE constant (src/index.js line 40). -/
def MIN_ARBITRAGE : ℚ := 1 / 100

/-- MAX_ARBITRAGE constant (src/index.js line 42). -/
def MAX_ARBITRAGE : ℚ := 1 / 2

/-- The object literal returned by calculateArbitrage (src/index.js 46-52). -/
structure ArbOutcome where
  hasArbitrage : Bool
  amount : ℚ
  strategy : String
deriving DecidableEq, Repr

/-- Math.max on two (non-NaN) numbers: the larger argument. -/
def jsMax (a b : ℚ) : ℚ := if a ≤ b then b else a

lemma jsMax_eq_max (a b : ℚ) : jsMax a b = max a b := by
  unfold jsMax
  split
  · rw [max_eq_right (by assumption)]
  · rw [max_eq_left (le_of_not_le (by assumption))]

/-- Body of calculateArbitrage after the two price pairs are destructured
(src/index.js lines 32-52). `bestArbitrage = Math.max(a1, a2)`; the JS test
`bestArbitrage === arbitrage1` is numeric equality of the max with a1. -/
def calcArbPair (polyYes polyNo kalshiYes kalshiNo : ℚ) : ArbOutcome :=
  let arbitrage1 := 1 - (polyYes + kalshiNo)
  let arbitrage2 := 1 - (polyNo + kalshiYes)
  let bestArbitrage := jsMax arbitrage1 arbitrage2
  { hasArbitrage := decide (MIN_ARBITRAGE < bestArbitrage) &&
      decide (bestArbitrage < MAX_ARBITRAGE)
    amount := bestArbitrage
    strategy := if bestArbitrage = arbitrage1 then STRATEGY_YES_POLY
      else STRATEGY_NO_POLY }

/-- calculateArbitrage (src/index.js lines 25-53). The only validation in the
source is the array-shape check (is an array of exactly two legs); the thrown
`Error('Invalid price format')` is the Except.error branch. Inputs are lists
of rationals, so the `Array.isArray` half of the check is always true. -/
def calculateArbitrage (polyPrices kalshiPrices : List ℚ) :
    Except String ArbOutcome :=
  match polyPrices, kalshiPrices with
  | [polyYes, polyNo], [kalshiYes, kalshiNo] =>
      Except.ok (calcArbPair polyYes polyNo kalshiYes kalshiNo)
  | _, _ => Except.error ("Invalid price format")

/-- The evaluator on a matched pair of two-leg quotes: calculateArbitrage
followed by the `if (!arbitrage.hasArbitrage) return null` check of
calculateArbitrageForMatch (src/index.js line 273). -/
def evaluate (yesA noA yesB noB : ℚ) : Option ArbOutcome :=
  let arb := calcArbPair yesA noA yesB noB
  if arb.hasArbitrage then some arb else none

/-- ASCII word character, the regex class backslash-w: letter, digit or
underscore. -/
def isWordChar (c : Char) : Bool := c.isAlphanum || c == '_'

/-- ASCII whitespace, the regex class backslash-s (unicode spaces are not
needed for the market titles handled here). -/
def isSpaceChar (c : Char) : Bool :=
  c == ' ' || c == '\t' || c == '\n' || c == '\r' || c == '\x0b' || c == '\x0c'

/-- Substring search over character lists, the semantics of
`String.prototype.includes`. -/
def containsSubstrChars (needle : List Char) : List Char → Bool
  | [] => needle.isEmpty
  | c :: rest => needle.isPrefixOf (c :: rest) || containsSubstrChars needle rest

/-- `hay.includes(needle)` on strings. -/
def strIncludes (hay needle : String) : Bool :=
  containsSubstrChars needle.data hay.data

/-- `toLowerCase()`: lowercase every character (ASCII, which covers the
market titles handled here). -/
def jsToLower (s : String) : String := String.mk (s.data.map Char.toLower)

/-- The `types` object of getMarketType (src/index.js lines 186-191), in
its JS insertion (= iteration) order. -/
def marketTypeTable : List (String × List String) :=
  [("crypto", ["bitcoin", "btc", "ethereum", "eth", "crypto"]),
   ("politics", ["election", "president", "senate", "house", "congress",
                 "democrat", "republican", "trump", "biden"]),
   ("sports", ["win", "league", "championship", "cup", "game", "match"]),
   ("finance", ["rate", "fed", "interest", "market", "price", "index"])]

/-- The for-of loop of getMarketType: first category whose keyword list has
a substring hit wins, else `other`. -/
def getMarketTypeAux (t : String) : List (String × List String) → String
  | [] => "other"
  | (ty, kws) :: rest =>
      if kws.any (fun k => strIncludes t k) then ty
      else getMarketTypeAux t rest

/-- getMarketType (src/index.js lines 185-200): the title is lowercased and
the categories are scanned in fixed order. -/
def getMarketType (title : String) : String :=
  getMarketTypeAux (jsToLower title) marketTypeTable

/-- Spec-shaped restatement of the classifier: the first table entry with a
case-insensitive substring hit, `other` when none hits. Stated from the
spec wording, to be compared with getMarketType. -/
def firstMatchingCategory (title : String) : String :=
  ((marketTypeTable.find?
      (fun p => p.2.any (fun k => strIncludes (jsToLower title) k))).map
    Prod.fst).getD ("other")

/-- The stop-word alternation of extractKeywords (src/index.js line 178). -/
def stopwords : List (List Char) :=
  [("will").data, ("the").data, ("be").data, ("in").data, ("by").data,
   ("at").data, ("on").data, ("for").data, ("of").data, ("to").data,
   ("and").data, ("or").data, ("a").data, ("an").data]

/-- Split a character list into maximal runs of word characters and single
non-word characters, preserving order and content. -/
def chunkRuns (l : List Char) : List (List Char) :=
  l.foldr
    (fun c acc =>
      if isWordChar c then
        match acc with
        | (d :: ds) :: rest =>
            if isWordChar d then (c :: d :: ds) :: rest
            else [c] :: (d :: ds) :: rest
        | _ => [c] :: acc
      else [c] :: acc)
    []

/-- The stop-word removal `.replace(/\b(will|the|...)\b/g, '')` of
extractKeywords. On a string of word characters and whitespace, a match of
that regex is exactly a maximal word run equal to a stop word, and the
replacement deletes the run, leaving its surroundings. -/
def removeStopwords (l : List Char) : List Char :=
  ((chunkRuns l).map (fun run => if stopwords.contains run then [] else run)).flatten

/-- `String.prototype.trim`: strip whitespace from both ends. -/
def jsTrim (l : List Char) : List Char :=
  ((l.dropWhile (fun c => isSpaceChar c)).reverse.dropWhile
    (fun c => isSpaceChar c)).reverse

/-- `split(' ')`: split on single space characters, keeping empty pieces. -/
def splitSp : List Char → List (List Char)
  | [] => [[]]
  | c :: cs =>
      let r := splitSp cs
      if c = ' ' then [] :: r
      else
        match r with
        | [] => [[c]]
        | t :: ts => (c :: t) :: ts

/-- extractKeywords (src/index.js lines 174-183): lowercase, delete
punctuation (characters that are neither word characters nor whitespace),
delete stop words at word boundaries, trim, split on spaces, keep tokens
longer than two characters. -/
def extractKeywords (title : String) : List String :=
  let cleanTitle := jsTrim (removeStopwords
    (((jsToLower title).data).filter (fun c => isWordChar c || isSpaceChar c)))
  ((splitSp cleanTitle).filter (fun w => 2 < w.length)).map
    (fun w => String.mk w)

/-- `keywords1.filter(word => keywords2.includes(word))` of compareMarkets
(src/index.js line 216): the elements of the first list that occur in the
second, multiplicity of the first list preserved. -/
def keywordOverlap (keywords1 keywords2 : List String) : List String :=
  keywords1.filter (fun w => keywords2.contains w)

/-- `commonKeywords.length / Math.max(k1.length, k2.length)` (src/index.js
line 217). When both keyword lists are empty this is the JS division 0/0,
i.e. NaN, modelled as none. -/
def keywordScore (keywords1 keywords2 : List String) : Option ℚ :=
  let denom := Nat.max keywords1.length keywords2.length
  if denom = 0 then none
  else some (((keywordOverlap keywords1 keywords2).length : ℚ) / (denom : ℚ))

/-- The confidence threshold of compareMarkets (src/index.js line 227). -/
def THRESHOLD_CONF : ℚ := 0.65

/-- The common-keyword minimum of compareMarkets (src/index.js line 227). -/
def MIN_COMMON_KEYWORDS : ℕ := 2

/-- The object returned by compareMarkets. `confidence = none` models a NaN
confidence; `commonKeywords = none` models the category-mismatch return,
which carries no commonKeywords field. -/
structure MatchResult where
  isMatch : Bool
  confidence : Option ℚ
  commonKeywords : Option (List String)
deriving DecidableEq, Repr

/-- compareMarkets (src/index.js lines 202-231), parametrized by the
external string-similarity function `sim` (the string-similarity npm
package, not part of this repository). Titles are lowercased, the category
gate is checked first, then keyword overlap, keyword score, similarity and
the combined confidence. A NaN confidence (none) fails the `> 0.65` test,
as in JS. -/
def compareMarkets (sim : String → String → ℚ) (title1 title2 : String) :
    MatchResult :=
  let t1 := jsToLower title1
  let t2 := jsToLower title2
  if getMarketType t1 ≠ getMarketType t2 then
    { isMatch := false, confidence := some 0, commonKeywords := none }
  else
    let keywords1 := extractKeywords t1
    let keywords2 := extractKeywords t2
    let common := keywordOverlap keywords1 keywords2
    let score := keywordScore keywords1 keywords2
    let confidence := score.map (fun k => k * (1/2) + sim t1 t2 * (1/2))
    { isMatch :=
        match confidence with
        | none => false
        | some c =>
            decide (THRESHOLD_CONF < c) &&
              decide (MIN_COMMON_KEYWORDS ≤ common.length),
      confidence := confidence,
      commonKeywords := some common }

/-- One side of an emitted opportunity (src/index.js lines 276-291). -/
structure SideQuote where
  title : String
  yes : ℚ
  no : ℚ
  volume : ℚ
deriving DecidableEq, Repr

/-- The opportunity object built by calculateArbitrageForMatch
(src/index.js lines 275-299). -/
structure Opportunity where
  polymarket : SideQuote
  kalshi : SideQuote
  potentialProfit : ℚ
  strategy : String
  priceDiffYes : ℚ
  priceDiffNo : ℚ
  source : String
deriving DecidableEq, Repr

/-- `opp.polymarket.title.toLowerCase().trim()`, the deduplication key of
the /api/arbitrage handler (src/index.js line 402). -/
def normTitle (o : Opportunity) : String :=
  String.mk (jsTrim ((jsToLower o.polymarket.title).data))

/-- The seen-titles filter of the handler (src/index.js lines 400-408): an
opportunity is kept when its normalized Polymarket title was not kept
before, and kept titles accumulate in `seen`. -/
def dedupeByTitle (seen : List String) : List Opportunity → List Opportunity
  | [] => []
  | o :: os =>
      if seen.contains (normTitle o) then dedupeByTitle seen os
      else o :: dedupeByTitle (normTitle o :: seen) os

/-- Stable descending insertion by a rational key: the new element goes
before the first strictly smaller key and after equal keys already placed
later in the input, which is the ordering `Array.prototype.sort` (stable
since ES2019) produces for the comparator `(a, b) => key(b) - key(a)`. -/
def insertDescBy (key : Opportunity → ℚ) (x : Opportunity) :
    List Opportunity → List Opportunity
  | [] => [x]
  | y :: ys =>
      if key y ≤ key x then x :: y :: ys
      else y :: insertDescBy key x ys

/-- Stable sort, descending by the given key. -/
def sortDescBy (key : Opportunity → ℚ) : List Opportunity → List Opportunity
  | [] => []
  | x :: xs => insertDescBy key x (sortDescBy key xs)

/-- The aggregation of the /api/arbitrage handler (src/index.js lines
394-414): drop null entries, deduplicate by normalized Polymarket title
keeping first occurrences, sort descending by potentialProfit. -/
def aggregate (results : List (Option Opportunity)) : List Opportunity :=
  sortDescBy (fun o => o.potentialProfit)
    (dedupeByTitle [] (results.filterMap id))

/-- The marginFraction of an emitted opportunity: the handler stores
`potentialProfit = amount * 100` (src/index.js line 292), so the margin as
a fraction is potentialProfit / 100. -/
def marginFraction (o : Opportunity) : ℚ := o.potentialProfit / 100

/-- Spec-shaped aggregator (spec section 4.4): drop nulls, deduplicate by
normalized title keeping the first occurrence, sort descending by
marginFraction with ties preserving input order. Stated from the spec
wording, to be compared with aggregate. -/
def aggregateSpec (results : List (Option Opportunity)) : List Opportunity :=
  sortDescBy marginFraction (dedupeByTitle [] (results.filterMap id))

/-- The Kalshi leg prices built for a matched pair (src/index.js lines
263-266): `[yes_bid / 100, (100 - yes_bid) / 100]`. -/
def kalshiLegs (yesBid : ℚ) : List ℚ := [yesBid / 100, (100 - yesBid) / 100]

/-- The fields of a matched pair that calculateArbitrageForMatch reads.
`polyOutcomePrices = none` models a `JSON.parse(outcomePrices)` call that
throws (or yields a non-array); otherwise the parsed, parseFloat-mapped
price list, of any length. `polyVolume`/`kalshiVolume = none` model a
parseFloat that returns NaN, which `|| 0` turns into 0. -/
structure RawMarketPair where
  polyOutcomePrices : Option (List ℚ)
  polyQuestion : String
  polyVolume : Option ℚ
  kalshiYesBid : ℚ
  kalshiTitle : String
  kalshiVolume : Option ℚ
  source : String
deriving DecidableEq, Repr

/-- The body of the try block of calculateArbitrageForMatch (src/index.js
lines 261-299), with the throwing steps in Except. A price list shorter
than two entries makes `polyPrices[i]` undefined in JS; the resulting NaN
margins fail the hasArbitrage band, so the function returns null without
throwing — the `Except.ok none` branch. -/
def calcForMatchCore (m : RawMarketPair) :
    Except String (Option Opportunity) :=
  match m.polyOutcomePrices with
  | none => Except.error ("JSON parse error")
  | some polyPrices =>
      match polyPrices.get? 0, polyPrices.get? 1 with
      | some p0, some p1 =>
          match calculateArbitrage [p0, p1] (kalshiLegs m.kalshiYesBid) with
          | Except.error e => Except.error e
          | Except.ok arb =>
              if arb.hasArbitrage then
                Except.ok (some
                  { polymarket :=
                      { title := m.polyQuestion
                        yes := p0
                        no := p1
                        volume := m.polyVolume.getD 0 }
                    kalshi :=
                      { title := m.kalshiTitle
                        yes := m.kalshiYesBid / 100
                        no := (100 - m.kalshiYesBid) / 100
                        volume := m.kalshiVolume.getD 0 }
                    potentialProfit := arb.amount * 100
                    strategy := arb.strategy
                    priceDiffYes := (p0 - m.kalshiYesBid / 100) * 100
                    priceDiffNo := (p1 - (100 - m.kalshiYesBid) / 100) * 100
                    source := m.source })
              else Except.ok none
      | _, _ => Except.ok none

/-- calculateArbitrageForMatch with its surrounding try/catch (src/index.js
lines 260-304): any thrown error is caught, logged and turned into null. -/
def calculateArbitrageForMatch (m : RawMarketPair) : Option Opportunity :=
  match calcForMatchCore m with
  | Except.error _ => none
  | Except.ok r => r

/-- The per-match evaluation pass of the handler (src/index.js lines
380-392): every matched pair is mapped independently to a result or null. -/
def processMatches (ms : List RawMarketPair) : List (Option Opportunity) :=
  ms.map (fun m => calculateArbitrageForMatch m)

/-- Example matched pair (Polymarket prices 0.1/0.9, Kalshi yes_bid 40). -/
def samplePair : RawMarketPair :=
  { polyOutcomePrices := some [1/10, 9/10]
    polyQuestion := "q"
    polyVolume := none
    kalshiYesBid := 40
    kalshiTitle := "t"
    kalshiVolume := none
    source := "algorithm" }

/-- The opportunity samplePair evaluates to: margin 0.3 on buying Yes on
Polymarket and No on Kalshi. -/
def sampleOpportunity : Opportunity :=
  { polymarket := { title := "q", yes := 1/10, no := 9/10, volume := 0 }
    kalshi := { title := "t", yes := 40/100, no := (100 - 40)/100, volume := 0 }
    potentialProfit := (3/10) * 100
    strategy := STRATEGY_YES_POLY
    priceDiffYes := (1/10 - 40/100) * 100
    priceDiffNo := (9/10 - (100 - 40)/100) * 100
    source := "algorithm" }

/-- The accepted-margin band of calcArbPair, as a proposition. -/
lemma calcArbPair_hasArbitrage_iff (a b c d : ℚ) :
    (calcArbPair a b c d).hasArbitrage = true ↔
      (MIN_ARBITRAGE < max (1 - (a + d)) (1 - (b + c)) ∧
        max (1 - (a + d)) (1 - (b + c)) < MAX_ARBITRAGE) := by
  simp [calcArbPair, jsMax_eq_max]

lemma calcArbPair_amount (a b c d : ℚ) :
    (calcArbPair a b c d).amount = max (1 - (a + d)) (1 - (b + c)) := by
  simp only [calcArbPair, jsMax_eq_max]

lemma calcArbPair_strategy_yes (a b c d : ℚ)
    (hle : 1 - (b + c) ≤ 1 - (a + d)) :
    (calcArbPair a b c d).strategy = STRATEGY_YES_POLY := by
  simp only [calcArbPair, jsMax_eq_max]
  rw [max_eq_left hle, if_pos rfl]

lemma calcArbPair_strategy_no (a b c d : ℚ)
    (hlt : 1 - (a + d) < 1 - (b + c)) :
    (calcArbPair a b c d).strategy = STRATEGY_NO_POLY := by
  simp only [calcArbPair, jsMax_eq_max]
  rw [max_eq_right hlt.le, if_neg hlt.ne']

/-- Claim C1, counterexample. The claim says the evaluator must fail whenever
some input price lies outside [0,1]; but with prices 2 and 3 (both out of
range, both pairs having exactly two legs) calculateArbitrage raises no
error and returns an ordinary result, because the source validates only the
array shape, never the price values. -/
theorem calculateArbitrage_c1_counterexample :
    (1 : ℚ) < 2 ∧
    calculateArbitrage [2, 3] [1/2, 1/2] =
      Except.ok (calcArbPair 2 3 (1/2) (1/2)) ∧
    (calcArbPair 2 3 (1/2) (1/2)).amount = -3/2 := by
  refine ⟨by norm_num, rfl, ?_⟩
  rw [calcArbPair_amount]
  norm_num [max_def]

/-- Claim C1, amended: a call to calculateArbitrage fails (with the
`Invalid price format` error) exactly when one of the two price pairs does
not have exactly two legs; the prices themselves are never range-checked,
so in-range and out-of-range prices alike raise no error when both pairs
have two legs. -/
theorem calculateArbitrage_c1_amended (polyPrices kalshiPrices : List ℚ) :
    (∃ e, calculateArbitrage polyPrices kalshiPrices = Except.error e) ↔
      ¬(polyPrices.length = 2 ∧ kalshiPrices.length = 2) := by
  rcases polyPrices with _ | ⟨a, _ | ⟨b, _ | ⟨x, p⟩⟩⟩ <;>
    rcases kalshiPrices with _ | ⟨c, _ | ⟨d, _ | ⟨y, k⟩⟩⟩ <;>
      simp [calculateArbitrage]

/-- Claim C2: for every valid price 4-tuple the evaluator returns null
exactly when the best margin is not strictly between MIN_ARBITRAGE and
MAX_ARBITRAGE; a best margin exactly equal to either bound is rejected, and
when a result is returned its amount (the marginFraction) is the best
margin. -/
theorem evaluate_c2_margin_band (yesA noA yesB noB : ℚ)
    (h : 0 ≤ yesA ∧ yesA ≤ 1 ∧ 0 ≤ noA ∧ noA ≤ 1 ∧
         0 ≤ yesB ∧ yesB ≤ 1 ∧ 0 ≤ noB ∧ noB ≤ 1) :
    (evaluate yesA noA yesB noB = none ↔
      ¬(MIN_ARBITRAGE < max (1 - (yesA + noB)) (1 - (noA + yesB)) ∧
        max (1 - (yesA + noB)) (1 - (noA + yesB)) < MAX_ARBITRAGE)) ∧
    (max (1 - (yesA + noB)) (1 - (noA + yesB)) = MIN_ARBITRAGE →
      evaluate yesA noA yesB noB = none) ∧
    (max (1 - (yesA + noB)) (1 - (noA + yesB)) = MAX_ARBITRAGE →
      evaluate yesA noA yesB noB = none) ∧
    (∀ r, evaluate yesA noA yesB noB = some r →
      r.amount = max (1 - (yesA + noB)) (1 - (noA + yesB))) := by
  by_cases hacc : MIN_ARBITRAGE < max (1 - (yesA + noB)) (1 - (noA + yesB)) ∧
      max (1 - (yesA + noB)) (1 - (noA + yesB)) < MAX_ARBITRAGE
  · have hb : (calcArbPair yesA noA yesB noB).hasArbitrage = true :=
      (calcArbPair_hasArbitrage_iff yesA noA yesB noB).mpr hacc
    have he : evaluate yesA noA yesB noB =
        some (calcArbPair yesA noA yesB noB) := by
      simp [evaluate, hb]
    refine ⟨?_, ?_, ?_, ?_⟩
    · rw [he]; simp [hacc]
    · intro hmin
      exfalso
      have := hacc.1
      rw [hmin] at this
      exact lt_irrefl _ this
    · intro hmax
      exfalso
      have := hacc.2
      rw [hmax] at this
      exact lt_irrefl _ this
    · intro r hr
      rw [he] at hr
      cases hr
      exact calcArbPair_amount yesA noA yesB noB
  · have hb : (calcArbPair yesA noA yesB noB).hasArbitrage = false := by
      rw [← Bool.not_eq_true]
      intro hT
      exact hacc ((calcArbPair_hasArbitrage_iff yesA noA yesB noB).mp hT)
    have he : evaluate yesA noA yesB noB = none := by
      simp [evaluate, hb]
    refine ⟨?_, fun _ => he, fun _ => he, ?_⟩
    · exact iff_of_true he hacc
    · intro r hr
      rw [he] at hr
      exact absurd hr (by simp)

/-- Claim C2, witness at the spec worked example (0.40, 0.60, 0.55, 0.45). -/
theorem evaluate_c2_witness :
    (evaluate (2/5) (3/5) (11/20) (9/20) = none ↔
      ¬(MIN_ARBITRAGE < max (1 - (2/5 + 9/20)) (1 - (3/5 + 11/20)) ∧
        max (1 - (2/5 + 9/20)) (1 - (3/5 + 11/20)) < MAX_ARBITRAGE)) :=
  (evaluate_c2_margin_band (2/5) (3/5) (11/20) (9/20) (by norm_num)).1

/-- Claim C4, counterexample. The claim says swapping the two pairs always
swaps the reported strategy; but on the valid tie tuple
(0.4, 0.4, 0.5, 0.5), where both margins equal 0.1, the original call and
the swapped call both report the strategy of arbitrage1, not opposite
strategies. -/
theorem calcArbPair_c4_counterexample :
    ((0 : ℚ) ≤ 2/5 ∧ (2/5 : ℚ) ≤ 1 ∧ (0 : ℚ) ≤ 1/2 ∧ (1/2 : ℚ) ≤ 1) ∧
    (calcArbPair (2/5) (2/5) (1/2) (1/2)).strategy = STRATEGY_YES_POLY ∧
    (calcArbPair (1/2) (1/2) (2/5) (2/5)).strategy = STRATEGY_YES_POLY ∧
    STRATEGY_YES_POLY ≠ STRATEGY_NO_POLY := by
  refine ⟨by norm_num,
    calcArbPair_strategy_yes (2/5) (2/5) (1/2) (1/2) (by norm_num),
    calcArbPair_strategy_yes (1/2) (1/2) (2/5) (2/5) (by norm_num),
    by decide⟩

/-- Claim C4, amended: for every valid price 4-tuple, evaluating the
relabeled tuple (yesB, noB, yesA, noA) yields the same margin amount; the
reported strategy is the opposite one whenever the two margins differ, while
on a tie both orders report the arbitrage1 strategy (the code's tie-break). -/
theorem calcArbPair_c4_swap_amended (yesA noA yesB noB : ℚ)
    (h : 0 ≤ yesA ∧ yesA ≤ 1 ∧ 0 ≤ noA ∧ noA ≤ 1 ∧
         0 ≤ yesB ∧ yesB ≤ 1 ∧ 0 ≤ noB ∧ noB ≤ 1) :
    (calcArbPair yesB noB yesA noA).amount =
      (calcArbPair yesA noA yesB noB).amount ∧
    (1 - (yesA + noB) ≠ 1 - (noA + yesB) →
      ((calcArbPair yesA noA yesB noB).strategy = STRATEGY_YES_POLY ↔
        (calcArbPair yesB noB yesA noA).strategy = STRATEGY_NO_POLY)) ∧
    (1 - (yesA + noB) = 1 - (noA + yesB) →
      (calcArbPair yesA noA yesB noB).strategy = STRATEGY_YES_POLY ∧
      (calcArbPair yesB noB yesA noA).strategy = STRATEGY_YES_POLY) := by
  have e1 : 1 - (yesB + noA) = 1 - (noA + yesB) := by ring
  have e2 : 1 - (noB + yesA) = 1 - (yesA + noB) := by ring
  refine ⟨?_, ?_, ?_⟩
  · rw [calcArbPair_amount, calcArbPair_amount, e1, e2, max_comm]
  · intro hne
    rcases lt_or_gt_of_ne hne with h1 | h1
    · have horig := calcArbPair_strategy_no yesA noA yesB noB h1
      have hswap : (calcArbPair yesB noB yesA noA).strategy =
          STRATEGY_YES_POLY := by
        apply calcArbPair_strategy_yes
        rw [e1, e2]
        exact h1.le
      rw [horig, hswap]
      constructor
      · intro hc; exact absurd hc (by decide)
      · intro hc; exact absurd hc (by decide)
    · have horig := calcArbPair_strategy_yes yesA noA yesB noB h1.le
      have hswap : (calcArbPair yesB noB yesA noA).strategy =
          STRATEGY_NO_POLY := by
        apply calcArbPair_strategy_no
        rw [e1, e2]
        exact h1
      rw [horig, hswap]
      simp
  · intro heq
    constructor
    · exact calcArbPair_strategy_yes yesA noA yesB noB heq.ge
    · apply calcArbPair_strategy_yes
      rw [e1, e2]
      exact heq.le

/-- Claim C4, witness of the amended statement at the asymmetric valid tuple
(0.40, 0.60, 0.55, 0.45), whose margins 0.15 and -0.15 differ. -/
theorem calcArbPair_c4_witness :
    (calcArbPair (11/20) (9/20) (2/5) (3/5)).amount =
      (calcArbPair (2/5) (3/5) (11/20) (9/20)).amount ∧
    ((calcArbPair (2/5) (3/5) (11/20) (9/20)).strategy = STRATEGY_YES_POLY ↔
      (calcArbPair (11/20) (9/20) (2/5) (3/5)).strategy =
        STRATEGY_NO_POLY) :=
  ⟨(calcArbPair_c4_swap_amended (2/5) (3/5) (11/20) (9/20) (by norm_num)).1,
   (calcArbPair_c4_swap_amended (2/5) (3/5) (11/20) (9/20)
      (by norm_num)).2.1 (by norm_num)⟩

/-- Claim C5: for every valid price 4-tuple the reported strategy is the leg
combination achieving the larger of the two margins, a tie being reported as
the arbitrage1 strategy, and the reported amount is the larger margin. -/
theorem calcArbPair_c5_strategy (yesA noA yesB noB : ℚ)
    (h : 0 ≤ yesA ∧ yesA ≤ 1 ∧ 0 ≤ noA ∧ noA ≤ 1 ∧
         0 ≤ yesB ∧ yesB ≤ 1 ∧ 0 ≤ noB ∧ noB ≤ 1) :
    (1 - (noA + yesB) ≤ 1 - (yesA + noB) →
      (calcArbPair yesA noA yesB noB).strategy = STRATEGY_YES_POLY) ∧
    (1 - (yesA + noB) < 1 - (noA + yesB) →
      (calcArbPair yesA noA yesB noB).strategy = STRATEGY_NO_POLY) ∧
    (calcArbPair yesA noA yesB noB).amount =
      max (1 - (yesA + noB)) (1 - (noA + yesB)) :=
  ⟨fun hle => calcArbPair_strategy_yes yesA noA yesB noB hle,
   fun hlt => calcArbPair_strategy_no yesA noA yesB noB hlt,
   calcArbPair_amount yesA noA yesB noB⟩

/-- Claim C5, witness at (0.40, 0.60, 0.55, 0.45): margin1 = 0.15 is the
larger margin, so the arbitrage1 strategy is reported. -/
theorem calcArbPair_c5_witness :
    (calcArbPair (2/5) (3/5) (11/20) (9/20)).strategy = STRATEGY_YES_POLY ∧
    (calcArbPair (2/5) (3/5) (11/20) (9/20)).amount =
      max (1 - (2/5 + 9/20)) (1 - (3/5 + 11/20)) :=
  ⟨(calcArbPair_c5_strategy (2/5) (3/5) (11/20) (9/20)
      (by norm_num)).1 (by norm_num),
   (calcArbPair_c5_strategy (2/5) (3/5) (11/20) (9/20) (by norm_num)).2.2⟩

lemma getMarketTypeAux_eq_find (t : String) :
    ∀ l : List (String × List String),
      getMarketTypeAux t l =
        ((l.find? (fun p => p.2.any (fun k => strIncludes t k))).map
          Prod.fst).getD ("other")
  | [] => by simp [getMarketTypeAux]
  | (ty, kws) :: rest => by
      cases h : kws.any (fun k => strIncludes t k) with
      | true => simp [getMarketTypeAux, List.find?, h]
      | false =>
          simp [getMarketTypeAux, List.find?, h,
            getMarketTypeAux_eq_find t rest]

/-- Claim C7: getMarketType returns the first category of the fixed
priority order (crypto, politics, sports, finance) whose keyword set has a
case-insensitive substring hit in the title, and `other` when none hits; in
particular the Bitcoin title classifies as crypto and the Premier League
title as sports. -/
theorem getMarketType_c7_first_match :
    (∀ title, getMarketType title = firstMatchingCategory title) ∧
    getMarketType ("Will Bitcoin hit $100k in 2025?") = ("crypto") ∧
    getMarketType ("Who wins the Premier League?") = ("sports") := by
  refine ⟨?_, by decide, by decide⟩
  intro title
  unfold getMarketType firstMatchingCategory
  exact getMarketTypeAux_eq_find (jsToLower title) marketTypeTable

/-- Claim C3, counterexample. The claim says commonKeywords is the set
intersection of the two keyword lists and keywordScore its cardinality over
the larger list length, with score 0 when both lists are empty. On the
same-category titles `bitcoin bitcoin` and `bitcoin` the code keeps the
duplicate (commonKeywords is the two-element list), so its score is
2/2 = 1 while the set-intersection formula gives 1/2; and on two empty
tokenizations the score is the JS division 0/0 = NaN (none), not 0. -/
theorem compareMarkets_c3_counterexample :
    (compareMarkets (fun _ _ => 0) ("bitcoin bitcoin") ("bitcoin")).commonKeywords =
      some [("bitcoin"), ("bitcoin")] ∧
    ((extractKeywords ("bitcoin bitcoin")).dedup.filter
      (fun w => (extractKeywords ("bitcoin")).contains w)).length = 1 ∧
    Nat.max (extractKeywords ("bitcoin bitcoin")).length
      (extractKeywords ("bitcoin")).length = 2 ∧
    keywordScore (extractKeywords ("bitcoin bitcoin"))
      (extractKeywords ("bitcoin")) = some 1 ∧
    (1 : ℚ) ≠ 1/2 ∧
    keywordScore (extractKeywords ("a")) (extractKeywords ("a")) = none ∧
    keywordScore (extractKeywords ("a")) (extractKeywords ("a")) ≠ some 0 := by
  have h1 : extractKeywords ("bitcoin bitcoin") = [("bitcoin"), ("bitcoin")] := by
    decide
  have h2 : extractKeywords ("bitcoin") = [("bitcoin")] := by decide
  have ha : extractKeywords ("a") = [] := by decide
  have hov : keywordOverlap [("bitcoin"), ("bitcoin")] [("bitcoin")] =
      [("bitcoin"), ("bitcoin")] := by decide
  refine ⟨by decide, by decide, by decide, ?_, by norm_num, ?_, ?_⟩
  · rw [h1, h2]
    simp only [keywordScore, hov]
    norm_num
  · rw [ha]
    simp [keywordScore]
  · rw [ha]
    simp [keywordScore]

/-- Claim C3, amended: commonKeywords is the sublist of keywordsA whose
elements occur in keywordsB (so membership-wise it is the intersection, but
duplicates of keywordsA are retained and counted), keywordScore divides its
length by the larger list length, and when both keyword lists are empty the
score is NaN (none) rather than 0 — though such a pair still never
matches. -/
theorem compareMarkets_c3_amended (sim : String → String → ℚ)
    (t1 t2 : String) :
    (∀ w, w ∈ keywordOverlap (extractKeywords (jsToLower t1))
        (extractKeywords (jsToLower t2)) ↔
      (w ∈ extractKeywords (jsToLower t1) ∧
        w ∈ extractKeywords (jsToLower t2))) ∧
    (getMarketType (jsToLower t1) = getMarketType (jsToLower t2) →
      (compareMarkets sim t1 t2).commonKeywords =
        some (keywordOverlap (extractKeywords (jsToLower t1))
          (extractKeywords (jsToLower t2)))) ∧
    (extractKeywords (jsToLower t1) = [] →
      extractKeywords (jsToLower t2) = [] →
      keywordScore (extractKeywords (jsToLower t1))
        (extractKeywords (jsToLower t2)) = none ∧
      (compareMarkets sim t1 t2).isMatch = false) := by
  refine ⟨?_, ?_, ?_⟩
  · intro w
    simp [keywordOverlap, List.mem_filter]
  · intro h
    simp [compareMarkets, h]
  · intro h1 h2
    constructor
    · simp [keywordScore, h1, h2]
    · by_cases hc : getMarketType (jsToLower t1) = getMarketType (jsToLower t2)
      · simp [compareMarkets, hc, keywordScore, h1, h2]
      · simp [compareMarkets, hc]

/-- Claim C3, witness of the amended statement at the pair of titles
(`a`, `a`), both of which tokenize to the empty keyword list. -/
theorem compareMarkets_c3_witness :
    keywordScore (extractKeywords (jsToLower ("a")))
      (extractKeywords (jsToLower ("a"))) = none ∧
    (compareMarkets (fun _ _ => 0) ("a") ("a")).isMatch = false :=
  (compareMarkets_c3_amended (fun _ _ => 0) ("a") ("a")).2.2
    (by decide) (by decide)

/-- Claim C6: for same-category titles the confidence is the keyword score
and the similarity of the lowercased titles, each weighted 1/2 (NaN, i.e.
none, propagating), and isMatch holds exactly when the confidence exceeds
THRESHOLD_CONF and the common-keyword count reaches MIN_COMMON_KEYWORDS,
with the operating point THRESHOLD_CONF = 0.65 and MIN_COMMON_KEYWORDS = 2
drawn from the documented sets. -/
theorem compareMarkets_c6_confidence (sim : String → String → ℚ)
    (t1 t2 : String)
    (h : getMarketType (jsToLower t1) = getMarketType (jsToLower t2)) :
    (compareMarkets sim t1 t2).confidence =
      (keywordScore (extractKeywords (jsToLower t1))
        (extractKeywords (jsToLower t2))).map
        (fun k => k * (1/2) + sim (jsToLower t1) (jsToLower t2) * (1/2)) ∧
    ((compareMarkets sim t1 t2).isMatch = true ↔
      ∃ c, (compareMarkets sim t1 t2).confidence = some c ∧
        THRESHOLD_CONF < c ∧
        MIN_COMMON_KEYWORDS ≤ (keywordOverlap
          (extractKeywords (jsToLower t1))
          (extractKeywords (jsToLower t2))).length) ∧
    (THRESHOLD_CONF = 0.65 ∨ THRESHOLD_CONF = 0.7) ∧
    (MIN_COMMON_KEYWORDS = 2 ∨ MIN_COMMON_KEYWORDS = 3) := by
  refine ⟨?_, ?_, Or.inl rfl, Or.inl rfl⟩
  · simp [compareMarkets, h]
  · cases hks : keywordScore (extractKeywords (jsToLower t1))
        (extractKeywords (jsToLower t2)) with
    | none => simp [compareMarkets, h, hks]
    | some k => simp [compareMarkets, h, hks]

/-- Claim C6, witness at a concrete same-category pair of titles (the
category hypothesis is discharged at identical titles). -/
theorem compareMarkets_c6_witness :
    (THRESHOLD_CONF = 0.65 ∨ THRESHOLD_CONF = 0.7) ∧
    (MIN_COMMON_KEYWORDS = 2 ∨ MIN_COMMON_KEYWORDS = 3) :=
  ⟨(compareMarkets_c6_confidence (fun _ _ => 0) ("bitcoin rally coming soon")
      ("bitcoin rally coming soon") rfl).2.2.1,
   (compareMarkets_c6_confidence (fun _ _ => 0) ("bitcoin rally coming soon")
      ("bitcoin rally coming soon") rfl).2.2.2⟩

lemma marginFraction_le_iff (x y : Opportunity) :
    marginFraction y ≤ marginFraction x ↔
      y.potentialProfit ≤ x.potentialProfit := by
  unfold marginFraction
  constructor <;> intro h <;> linarith

lemma insertDescBy_profit_eq_margin (x : Opportunity) :
    ∀ l, insertDescBy (fun o => o.potentialProfit) x l =
      insertDescBy marginFraction x l
  | [] => rfl
  | y :: ys => by
      simp only [insertDescBy]
      by_cases h : y.potentialProfit ≤ x.potentialProfit
      · rw [if_pos h, if_pos ((marginFraction_le_iff x y).mpr h)]
      · rw [if_neg h, if_neg (fun hm => h ((marginFraction_le_iff x y).mp hm)),
          insertDescBy_profit_eq_margin x ys]

lemma sortDescBy_profit_eq_margin :
    ∀ l, sortDescBy (fun o => o.potentialProfit) l =
      sortDescBy marginFraction l
  | [] => rfl
  | x :: xs => by
      simp only [sortDescBy]
      rw [sortDescBy_profit_eq_margin xs, insertDescBy_profit_eq_margin]

lemma mem_insertDescBy (key : Opportunity → ℚ) (x z : Opportunity) :
    ∀ l, z ∈ insertDescBy key x l → z = x ∨ z ∈ l
  | [] => by simp [insertDescBy]
  | y :: ys => by
      simp only [insertDescBy]
      by_cases h : key y ≤ key x
      · rw [if_pos h]
        intro hz
        rcases List.mem_cons.mp hz with h1 | h1
        · exact Or.inl h1
        · exact Or.inr h1
      · rw [if_neg h]
        intro hz
        rcases List.mem_cons.mp hz with h1 | h1
        · exact Or.inr (h1 ▸ List.mem_cons_self y ys)
        · rcases mem_insertDescBy key x z ys h1 with h2 | h2
          · exact Or.inl h2
          · exact Or.inr (List.mem_cons_of_mem y h2)

lemma pairwise_insertDescBy (key : Opportunity → ℚ) (x : Opportunity) :
    ∀ l, l.Pairwise (fun a b => key b ≤ key a) →
      (insertDescBy key x l).Pairwise (fun a b => key b ≤ key a)
  | [] => by simp [insertDescBy]
  | y :: ys => by
      intro hp
      rcases List.pairwise_cons.mp hp with ⟨hy, hys⟩
      simp only [insertDescBy]
      by_cases h : key y ≤ key x
      · rw [if_pos h]
        refine List.pairwise_cons.mpr ⟨?_, hp⟩
        intro z hz
        rcases List.mem_cons.mp hz with h1 | h1
        · exact h1 ▸ h
        · exact le_trans (hy z h1) h
      · rw [if_neg h]
        refine List.pairwise_cons.mpr ⟨?_, pairwise_insertDescBy key x ys hys⟩
        intro z hz
        rcases mem_insertDescBy key x z ys hz with h1 | h1
        · exact h1 ▸ (lt_of_not_le h).le
        · exact hy z h1

lemma pairwise_sortDescBy (key : Opportunity → ℚ) :
    ∀ l, (sortDescBy key l).Pairwise (fun a b => key b ≤ key a)
  | [] => by simp [sortDescBy]
  | x :: xs => by
      simp only [sortDescBy]
      exact pairwise_insertDescBy key x _ (pairwise_sortDescBy key xs)

/-- Claim C8: the handler aggregation equals the spec pipeline — drop the
nulls, deduplicate by normalized Polymarket title keeping first occurrences
in input order, stable-sort descending by marginFraction (sorting by
potentialProfit and by marginFraction agree since one is 100 times the
other) — its output is sorted descending by marginFraction, and running it
twice on the same input yields identical output. -/
theorem aggregate_c8_pipeline (results : List (Option Opportunity)) :
    aggregate results = aggregateSpec results ∧
    (aggregate results).Pairwise
      (fun a b => marginFraction b ≤ marginFraction a) ∧
    aggregate results = aggregate results := by
  have hs : aggregate results = aggregateSpec results := by
    unfold aggregate aggregateSpec
    rw [sortDescBy_profit_eq_margin]
  refine ⟨hs, ?_, rfl⟩
  rw [hs]
  unfold aggregateSpec
  exact pairwise_sortDescBy marginFraction _

/-- Claim C9: the per-match pass maps each matched pair independently — the
output has one entry per input pair, the i-th output depends only on the
i-th pair — and a pair whose evaluation fails (its core computation throws)
yields null for that pair, never a propagated exception, so the aggregation
receives only results or explicit nulls. -/
theorem processMatches_c9_isolation (ms : List RawMarketPair) :
    (processMatches ms).length = ms.length ∧
    (∀ i : ℕ, (processMatches ms).get? i =
      (ms.get? i).map (fun m => calculateArbitrageForMatch m)) ∧
    (∀ m e, calcForMatchCore m = Except.error e →
      calculateArbitrageForMatch m = none) := by
  refine ⟨by simp [processMatches], ?_, ?_⟩
  · intro i
    simp [processMatches]
  · intro m e he
    unfold calculateArbitrageForMatch
    rw [he]

/-- Claim C9, witness: a pair whose outcomePrices fail to parse evaluates
to null. -/
theorem processMatches_c9_witness :
    calculateArbitrageForMatch
      { polyOutcomePrices := none, polyQuestion := ("q"), polyVolume := none,
        kalshiYesBid := 50, kalshiTitle := ("t"), kalshiVolume := none,
        source := ("algorithm") } = none :=
  (processMatches_c9_isolation []).2.2
    { polyOutcomePrices := none, polyQuestion := ("q"), polyVolume := none,
      kalshiYesBid := 50, kalshiTitle := ("t"), kalshiVolume := none,
      source := ("algorithm") } ("JSON parse error") rfl

/-- Claim C10: the Kalshi leg prices are built as yes_bid/100 and
(100 - yes_bid)/100, so they always sum to exactly 1, and every emitted
opportunity carries Kalshi yes/no prices summing to exactly 1. -/
theorem kalshiLegs_c10_sum_one (b : ℚ) (m : RawMarketPair)
    (opp : Opportunity) :
    (kalshiLegs b).sum = 1 ∧
    (calcForMatchCore m = Except.ok (some opp) →
      opp.kalshi.yes + opp.kalshi.no = 1) ∧
    (calculateArbitrageForMatch m = some opp →
      opp.kalshi.yes + opp.kalshi.no = 1) := by
  have hcore : calcForMatchCore m = Except.ok (some opp) →
      opp.kalshi.yes + opp.kalshi.no = 1 := by
    intro hok
    unfold calcForMatchCore at hok
    split at hok
    · exact absurd hok (by simp)
    · split at hok
      · simp only [kalshiLegs, calculateArbitrage] at hok
        split at hok
        · simp only [Except.ok.injEq, Option.some.injEq] at hok
          rw [← hok]
          show m.kalshiYesBid / 100 + (100 - m.kalshiYesBid) / 100 = 1
          ring
        · exact absurd hok (by simp)
      · exact absurd hok (by simp)
  refine ⟨?_, hcore, ?_⟩
  · show b / 100 + ((100 - b) / 100 + 0) = 1
    ring
  · intro hm
    unfold calculateArbitrageForMatch at hm
    cases hc : calcForMatchCore m with
    | error e => rw [hc] at hm; exact absurd hm (by simp)
    | ok r =>
        rw [hc] at hm
        exact hcore (hm ▸ hc)

/-- Claim C10, witness: a concrete matched pair with yes_bid = 40 produces
an opportunity whose Kalshi prices 0.4 and 0.6 sum to 1. -/
theorem kalshiLegs_c10_witness :
    sampleOpportunity.kalshi.yes + sampleOpportunity.kalshi.no = 1 :=
  (kalshiLegs_c10_sum_one 40 samplePair sampleOpportunity).2.2 (by
    unfold samplePair sampleOpportunity calculateArbitrageForMatch
      calcForMatchCore
    norm_num [kalshiLegs, calculateArbitrage, calcArbPair, jsMax,
      MIN_ARBITRAGE, MAX_ARBITRAGE, List.get?])
